import Mathlib

/-!
Shallow embedding of the form validation engine of
`src/assets/js/form-validation.js` (class `FormValidator`).

Strings whose characters matter (field values) are modelled as `List Char`;
human-readable messages are modelled as `String`.  DOM state touched by the
validator (CSS classes, indicator visibility, error text, button label) is
carried explicitly in `FieldState` / `FormState` records, and the two timer
continuations of the source (the debounce callback and the 2000ms submission
callback) are modelled as separate step functions, so every operation is a
pure state transformer driven by a discrete event.
-/

set_option autoImplicit false

namespace FormValidation

/-- JS string disjunction `a || b`: the empty string is falsy. -/
def jsOr (a b : String) : String := if a = "" then b else a

/-- JS `a || b` where `a` may be `null`/`undefined` (absent attribute). -/
def jsOrOpt (a : Option String) (b : String) : String :=
  match a with
  | some s => jsOr s b
  | none => b

/-- Models `str.replace(Char.ofNat 42 as a one-char string, empty)`: JS `String.replace`
with a string pattern removes only the first occurrence of the asterisk. -/
def removeFirstStar : List Char → List Char
  | [] => []
  | c :: cs => if c = '*' then cs else c :: removeFirstStar cs

/-- Models JS `String.prototype.trim`: strip whitespace from both ends. -/
def trimChars (cs : List Char) : List Char :=
  ((cs.dropWhile Char.isWhitespace).reverse.dropWhile Char.isWhitespace).reverse

/-- Character class `[^\s@]` of the email regular expression. -/
def isAddrChar (c : Char) : Bool := !c.isWhitespace && !(c = '@')

/-- Split a character list at its first `'@'`, returning the parts before and
after it, or `none` when no `'@'` occurs. -/
def splitAtFirstAmpersat : List Char → Option (List Char × List Char)
  | [] => none
  | c :: cs =>
    if c = '@' then some ([], cs)
    else
      match splitAtFirstAmpersat cs with
      | none => none
      | some (l, r) => some (c :: l, r)

/-- Denotation of the source email regex (line 176).  A string matches iff it
decomposes as `a@b.c` with `a`, `b`, `c` nonempty runs of `[^\s@]` characters;
since no part may contain `'@'`, the `'@'` of any match is the first (and
only) `'@'`, and the part after it must carry a dot that is neither its first
nor its last character. -/
def emailMatch (cs : List Char) : Bool :=
  match splitAtFirstAmpersat cs with
  | none => false
  | some (l, d) =>
    !l.isEmpty && l.all isAddrChar && d.all isAddrChar &&
      ((d.drop 1).dropLast.contains '.')

/-- Character class `[\s\-\(\)]` removed from phone values (line 197). -/
def isPhoneStripChar (c : Char) : Bool :=
  c.isWhitespace || c = '-' || c = '(' || c = ')'

/-- Models `value.replace` of the class above with the empty string, global flag. -/
def stripPhoneChars (cs : List Char) : List Char :=
  cs.filter (fun c => !isPhoneStripChar c)

/-- Body `[1-9][\d]{0,15}$` of the phone regex: one digit `1`-`9` followed by
at most fifteen further digits. -/
def phoneCore : List Char → Bool
  | [] => false
  | d :: ds =>
    decide ('1' ≤ d) && decide (d ≤ '9') && ds.all Char.isDigit &&
      decide (ds.length ≤ 15)

/-- Denotation of the source phone regex (line 195): an optional leading `'+'`
followed by `phoneCore`.  The optional branch is forced: a leading `'+'` can
never satisfy `[1-9]`, so matching is deterministic. -/
def phoneMatch (cs : List Char) : Bool :=
  match cs with
  | [] => phoneCore []
  | c :: rest => if c = '+' then phoneCore rest else phoneCore (c :: rest)

/-- The compiled value of a `pattern` attribute: `new RegExp(...)` either
yields a regular expression (abstracted as its match predicate on the trimmed
value) or throws on malformed input. -/
inductive PatternAttr where
  | valid (test : List Char → Bool)
  | invalid

/-- The attributes and properties of one input/textarea/select element that
the validator reads (lines 46-123).  Absent attributes are `none`; `name`,
`id`, `placeholder` and `type` are JS string properties defaulting to the
empty string.  `minlength` holds the `parseInt` of the attribute. -/
structure InputElement where
  name : String
  id : String
  type : String
  required : Bool
  minlength : Option Nat
  pattern : Option PatternAttr
  dataPatternMessage : Option String
  dataFieldName : Option String
  labelText : Option String
  placeholder : String
  value : List Char

/-- The tagged rule records pushed by `getValidationRules` (lines 67-114). -/
inductive ValidationRule where
  | required (message : String)
  | email (message : String)
  | minlength (value : Nat) (message : String)
  | pattern (value : List Char → Bool) (message : String)
  | phone (message : String)

/-- `input.name || input.id` (lines 64 and 105). -/
def fieldIdentifier (input : InputElement) : String := jsOr input.name input.id

/-- `getRequiredMessage` (lines 116-123): data attribute, else first label text
with its first asterisk removed and trimmed, else placeholder, else the
generic fallback, suffixed with the fixed text. -/
def getRequiredMessage (input : InputElement) : String :=
  let labelName := input.labelText.map
    (fun t => String.mk (trimChars (removeFirstStar t.toList)))
  jsOrOpt input.dataFieldName
    (jsOrOpt labelName (jsOr input.placeholder "This field")) ++ " is required"

/-- `getValidationRules` (lines 67-114): rules are pushed in the fixed order
required, email, minlength, pattern, phone.  Compiling a malformed `pattern`
attribute (`new RegExp`, line 99) throws, modelled as `Except.error`. -/
def getValidationRules (input : InputElement) : Except Unit (List ValidationRule) :=
  let r1 := if input.required then [ValidationRule.required (getRequiredMessage input)] else []
  let r2 := if input.type = "email" then
    [ValidationRule.email "Please enter a valid email address"] else []
  let r3 := match input.minlength with
    | some n => [ValidationRule.minlength n
        ("Minimum " ++ toString n ++ " characters required")]
    | none => []
  let r5 := if fieldIdentifier input = "phone" then
    [ValidationRule.phone "Please enter a valid phone number"] else []
  match input.pattern with
  | none => Except.ok (r1 ++ r2 ++ r3 ++ r5)
  | some (PatternAttr.valid p) =>
    Except.ok (r1 ++ r2 ++ r3 ++
      [ValidationRule.pattern p
        (jsOrOpt input.dataPatternMessage "Please match the requested format")] ++ r5)
  | some PatternAttr.invalid => Except.error ()

/-- Result record returned by `runValidationRule`. -/
structure RuleResult where
  isValid : Bool
  message : String

/-- `runValidationRule` (lines 167-204), applied by `validateField` to the
trimmed value.  JS `!value` on a string is emptiness. -/
def runValidationRule (rule : ValidationRule) (value : List Char) : RuleResult :=
  match rule with
  | ValidationRule.required msg => ⟨decide (value.length > 0), msg⟩
  | ValidationRule.email msg => ⟨value.isEmpty || emailMatch value, msg⟩
  | ValidationRule.minlength n msg => ⟨value.isEmpty || decide (value.length ≥ n), msg⟩
  | ValidationRule.pattern p msg => ⟨value.isEmpty || p value, msg⟩
  | ValidationRule.phone msg =>
    ⟨value.isEmpty || phoneMatch (stripPhoneChars value), msg⟩

/-- The per-field state tracked by the validator together with the DOM state
it mutates: the current input value, the rule list derived at initialization,
the `isValid` flag, the error element text and visibility, the success element
visibility, and the two CSS state classes on the field element. -/
structure FieldState where
  value : List Char
  rules : List ValidationRule
  isValid : Bool
  errorText : String
  errorVisible : Bool
  successVisible : Bool
  hasErrorClass : Bool
  hasSuccessClass : Bool

/-- `clearFieldState` (lines 206-214): remove both CSS classes, hide both
indicator elements, reset `isValid` to false.  The error text is untouched. -/
def clearFieldState (f : FieldState) : FieldState :=
  { f with hasErrorClass := false, hasSuccessClass := false,
           errorVisible := false, successVisible := false, isValid := false }

/-- `setFieldError` (lines 216-225): add the error class, remove the success
class, set and show the error text, mark invalid.  The success element's
visibility is not touched. -/
def setFieldError (f : FieldState) (message : String) : FieldState :=
  { f with hasErrorClass := true, hasSuccessClass := false,
           errorText := message, errorVisible := true, isValid := false }

/-- `setFieldSuccess` (lines 227-235): add the success class, remove the error
class, show the success element, mark valid.  The error element's visibility
is not touched. -/
def setFieldSuccess (f : FieldState) : FieldState :=
  { f with hasSuccessClass := true, hasErrorClass := false,
           successVisible := true, isValid := true }

/-- The rule loop of `validateField` (lines 154-160): the message of the first
rule whose result is invalid, or `none` when every rule passes. -/
def firstFailure : List ValidationRule → List Char → Option String
  | [], _ => none
  | r :: rs, v =>
    if (runValidationRule r v).isValid then firstFailure rs v
    else some (runValidationRule r v).message

/-- `validateField` (lines 146-165): trim the value, clear the visual state,
run the rules in order stopping at the first failure (displaying its message),
otherwise show success; the boolean is the function's return value. -/
def validateField (f : FieldState) : Bool × FieldState :=
  let v := trimChars f.value
  let f1 := clearFieldState f
  match firstFailure f.rules v with
  | some msg => (false, setFieldError f1 msg)
  | none => (true, setFieldSuccess f1)

/-- `initializeField` (lines 46-65): build the `FieldState` for one input with
rules derived once from its attributes; the error/success elements start
hidden and empty.  A throw from rule construction propagates. -/
def initField (input : InputElement) : Except Unit FieldState :=
  match getValidationRules input with
  | Except.error e => Except.error e
  | Except.ok rules => Except.ok
    { value := input.value, rules := rules, isValid := false,
      errorText := "", errorVisible := false, successVisible := false,
      hasErrorClass := false, hasSuccessClass := false }

/-- The `inputs.forEach` loop of `initializeForm` (lines 32-35): fields are
initialized in document order; an exception thrown for one field aborts the
remainder of the loop. -/
def initFields : List InputElement → Except Unit (List FieldState)
  | [] => Except.ok []
  | i :: is =>
    match initField i with
    | Except.error e => Except.error e
    | Except.ok f =>
      match initFields is with
      | Except.error e => Except.error e
      | Except.ok fs => Except.ok (f :: fs)

/-- The submit button of a form: its label, disabled flag and the
`data-original-text` attribute read when restoring it (lines 267-291). -/
structure SubmitButton where
  textContent : String
  disabled : Bool
  dataOriginalText : Option String
  deriving DecidableEq

/-- The `formData` record built by `initializeForm` (lines 24-44) together
with the submit control of the form and a flag for the pending 2000ms
submission timer of `submitForm`. -/
structure FormState where
  fields : List FieldState
  isValid : Bool
  submitBtn : Option SubmitButton
  submitTimer : Bool

/-- `initializeForm` (lines 24-44): fields in document order, the `isValid`
member initialized to `false`, no pending timer.  A throw from a field's
initialization propagates and the form is not registered. -/
def initForm (inputs : List InputElement) (btn : Option SubmitButton) :
    Except Unit FormState :=
  match initFields inputs with
  | Except.error e => Except.error e
  | Except.ok fs =>
    Except.ok { fields := fs, isValid := false, submitBtn := btn, submitTimer := false }

/-- `setupFormValidation` (lines 16-22): forms are processed in document
order; an exception thrown while one form initializes escapes the loop, so the
result is the list of forms registered before the throw, paired with a flag
recording whether an exception escaped. -/
def setupFormValidation : List (List InputElement) → List FormState × Bool
  | [] => ([], false)
  | form :: rest =>
    match initForm form none with
    | Except.error _ => ([], true)
    | Except.ok st =>
      let r := setupFormValidation rest
      (st :: r.1, r.2)

/-- The `fields.forEach` loop of `validateForm` (lines 237-247): every field
is re-validated (no short-circuit) in insertion order and the conjunction of
the results is returned. -/
def validateFields : List FieldState → Bool × List FieldState
  | [] => (true, [])
  | f :: fs =>
    let r := validateField f
    let rest := validateFields fs
    (r.1 && rest.1, r.2 :: rest.2)

/-- `validateForm` (lines 237-247): the overall result is a local value; the
stored `isValid` member of the form is not written. -/
def validateForm (form : FormState) : Bool × FormState :=
  let r := validateFields form.fields
  (r.1, { form with fields := r.2 })

/-- The outward-visible action taken by `handleSubmit`. -/
inductive SubmitAction where
  | beginSubmission
  | focusField (index : Nat)
  | noAction
  deriving DecidableEq

/-- `Array.from(formData.fields.values()).find(field => not field.isValid)`
(lines 256-257), as the index of the first invalid field in insertion order. -/
def findFirstInvalid : List FieldState → Option Nat
  | [] => none
  | f :: fs => if f.isValid then (findFirstInvalid fs).map (fun n => n + 1) else some 0

/-- The synchronous part of `submitForm` (lines 265-277): disable the submit
control, relabel it to the busy indicator, schedule the 2000ms timer.  (The
source also captures the current label into an unused local `originalText`.) -/
def submitFormStart (form : FormState) : FormState :=
  { form with
    submitBtn := form.submitBtn.map
      (fun b => { b with textContent := "Submitting...", disabled := true }),
    submitTimer := true }

/-- The 2000ms timer callback of `submitForm` (lines 277-292): reset the form
to empty (`form.reset()`; the tracked inputs have empty default values), clear
every field's visual state, and restore the submit control from its
`data-original-text` attribute - falling back to the fixed label `"Submit"`,
not to the label saved before submission - and re-enable it.  The transient
success modal is sibling-UI chrome outside this model. -/
def submitFormComplete (form : FormState) : FormState :=
  { form with
    fields := form.fields.map (fun f => clearFieldState { f with value := [] }),
    submitBtn := form.submitBtn.map
      (fun b => { b with textContent := jsOrOpt b.dataOriginalText "Submit",
                         disabled := false }),
    submitTimer := false }

/-- `handleSubmit` (lines 249-263): re-validate the whole form; on success run
the submission sequence, otherwise focus the first invalid field (when one
exists). -/
def handleSubmit (form : FormState) : SubmitAction × FormState :=
  let r := validateForm form
  if r.1 then (SubmitAction.beginSubmission, submitFormStart r.2)
  else
    match findFirstInvalid r.2.fields with
    | some i => (SubmitAction.focusField i, r.2)
    | none => (SubmitAction.noAction, r.2)

/-- Canonical position of each rule variant in the declaration order of the
spec (Required, Email, MinLength, Pattern, Phone). -/
def ruleOrderIndex : ValidationRule → Nat
  | ValidationRule.required _ => 0
  | ValidationRule.email _ => 1
  | ValidationRule.minlength _ _ => 2
  | ValidationRule.pattern _ _ => 3
  | ValidationRule.phone _ => 4

/-- A list of naturals is nondecreasing. -/
def nondecreasing : List Nat → Bool
  | [] => true
  | [_] => true
  | a :: b :: rest => decide (a ≤ b) && nondecreasing (b :: rest)

/-- Spec-side denotation, following the spec's words, of matching the phone
regex `[+]?[1-9][0-9]{0,15}` anchored at both ends: an optional plus sign,
then a nonzero digit, then at most fifteen digits. -/
def phoneRegexSpec (cs : List Char) : Prop :=
  ∃ (plus : Bool) (d : Char) (ds : List Char),
    cs = (if plus then ['+'] else []) ++ d :: ds ∧
    '1' ≤ d ∧ d ≤ '9' ∧ (∀ c ∈ ds, c.isDigit = true) ∧ ds.length ≤ 15

/-! Concrete states used to instantiate the claims. -/

/-- A required email field whose current value is `"bob"`. -/
def c1Input : InputElement :=
  { name := "email", id := "", type := "email", required := true,
    minlength := none, pattern := none, dataPatternMessage := none,
    dataFieldName := some "Email", labelText := none, placeholder := "",
    value := "bob".toList }

/-- The field state built for `c1Input`. -/
def c1Field : FieldState :=
  { value := "bob".toList,
    rules := [ValidationRule.required (getRequiredMessage c1Input),
              ValidationRule.email "Please enter a valid email address"],
    isValid := false, errorText := "", errorVisible := false,
    successVisible := false, hasErrorClass := false, hasSuccessClass := false }

/-- A required text field whose current value is whitespace only. -/
def c2Input : InputElement :=
  { name := "message", id := "", type := "text", required := true,
    minlength := none, pattern := none, dataPatternMessage := none,
    dataFieldName := some "Message", labelText := none, placeholder := "",
    value := [' ', ' '] }

/-- The field state built for `c2Input`. -/
def c2Field : FieldState :=
  { value := [' ', ' '],
    rules := [ValidationRule.required (getRequiredMessage c2Input)],
    isValid := false, errorText := "", errorVisible := false,
    successVisible := false, hasErrorClass := false, hasSuccessClass := false }

/-- A phone field whose current value is `"(555) 123-4567"`. -/
def c3Input : InputElement :=
  { name := "phone", id := "", type := "tel", required := false,
    minlength := none, pattern := none, dataPatternMessage := none,
    dataFieldName := none, labelText := none, placeholder := "",
    value := "(555) 123-4567".toList }

/-- The field state built for `c3Input`. -/
def c3Field : FieldState :=
  { value := "(555) 123-4567".toList,
    rules := [ValidationRule.phone "Please enter a valid phone number"],
    isValid := false, errorText := "", errorVisible := false,
    successVisible := false, hasErrorClass := false, hasSuccessClass := false }

/-- A submit button labelled by the markup, with no `data-original-text`. -/
def c6Btn : SubmitButton :=
  { textContent := "Register Now", disabled := false, dataOriginalText := none }

/-- A rule-free field holding a value, in the valid visual state. -/
def c6Field : FieldState :=
  { value := "hi".toList, rules := [], isValid := true, errorText := "",
    errorVisible := false, successVisible := true,
    hasErrorClass := false, hasSuccessClass := true }

/-- An entirely valid form about to run the submission sequence. -/
def c6Form : FormState :=
  { fields := [c6Field], isValid := false, submitBtn := some c6Btn,
    submitTimer := false }

/-- A plain text field with no activating attributes. -/
def c7Input : InputElement :=
  { name := "comment", id := "", type := "text", required := false,
    minlength := none, pattern := none, dataPatternMessage := none,
    dataFieldName := none, labelText := none, placeholder := "",
    value := [] }

/-- The field state built for `c7Input`. -/
def c7Field : FieldState :=
  { value := [], rules := [], isValid := false, errorText := "",
    errorVisible := false, successVisible := false,
    hasErrorClass := false, hasSuccessClass := false }

/-- The form state built for the single field `c7Field`. -/
def c7Form : FormState :=
  { fields := [c7Field], isValid := false, submitBtn := none,
    submitTimer := false }

/-- A field carrying a pattern attribute that is not a valid regular
expression. -/
def c8BadInput : InputElement :=
  { name := "a", id := "", type := "text", required := false,
    minlength := none, pattern := some PatternAttr.invalid,
    dataPatternMessage := none, dataFieldName := none, labelText := none,
    placeholder := "", value := [] }

/-- A well-formed field in the same form as `c8BadInput`. -/
def c8GoodInput : InputElement :=
  { name := "b", id := "", type := "text", required := false,
    minlength := none, pattern := none, dataPatternMessage := none,
    dataFieldName := none, labelText := none, placeholder := "", value := [] }

/-- A well-formed field in a second, separate form. -/
def c8GoodInput2 : InputElement :=
  { name := "c", id := "", type := "text", required := false,
    minlength := none, pattern := none, dataPatternMessage := none,
    dataFieldName := none, labelText := none, placeholder := "", value := [] }

/-- The form state the second form would be initialized to on its own. -/
def c8Form2 : FormState :=
  { fields := [{ value := [], rules := [], isValid := false, errorText := "",
                 errorVisible := false, successVisible := false,
                 hasErrorClass := false, hasSuccessClass := false }],
    isValid := false, submitBtn := none, submitTimer := false }

/-- A field in the valid visual state: success indicator shown. -/
def c9Field : FieldState :=
  { value := [], rules := [], isValid := true, errorText := "",
    errorVisible := false, successVisible := true,
    hasErrorClass := false, hasSuccessClass := true }

/-- A plain text field with no activating attributes. -/
def c10Input : InputElement :=
  { name := "nickname", id := "", type := "text", required := false,
    minlength := none, pattern := none, dataPatternMessage := none,
    dataFieldName := none, labelText := none, placeholder := "",
    value := [] }

/-- A field with an empty rule list and an empty value. -/
def c10Field : FieldState :=
  { value := [], rules := [], isValid := false, errorText := "",
    errorVisible := false, successVisible := false,
    hasErrorClass := false, hasSuccessClass := false }

/-! Helper lemmas. -/

theorem all_dropWhile_eq_nil {α : Type} (p : α → Bool) (l : List α)
    (h : l.all p = true) : l.dropWhile p = [] := by
  induction l with
  | nil => rfl
  | cons a l ih =>
    simp only [List.all_cons, Bool.and_eq_true] at h
    simp [List.dropWhile_cons, h.1, ih h.2]

theorem trimChars_eq_nil (cs : List Char) (h : cs.all Char.isWhitespace = true) :
    trimChars cs = [] := by
  unfold trimChars
  rw [all_dropWhile_eq_nil _ _ h]
  rfl

theorem firstFailure_eq_of_first_fail (v : List Char) :
    ∀ (rs : List ValidationRule) (i : Nat) (hi : i < rs.length),
      (∀ j (hj : j < rs.length), j < i →
        (runValidationRule (rs.get ⟨j, hj⟩) v).isValid = true) →
      (runValidationRule (rs.get ⟨i, hi⟩) v).isValid = false →
      firstFailure rs v = some (runValidationRule (rs.get ⟨i, hi⟩) v).message := by
  intro rs
  induction rs with
  | nil => intro i hi; simp at hi
  | cons r rs ih =>
    intro i hi hprev hfail
    cases i with
    | zero =>
      have h0 : (runValidationRule r v).isValid = false := hfail
      simp [firstFailure, h0]
    | succ n =>
      have h0 : (runValidationRule r v).isValid = true :=
        hprev 0 (Nat.succ_pos _) (Nat.succ_pos _)
      have hn : n < rs.length := Nat.lt_of_succ_lt_succ hi
      have hrec := ih n hn
        (fun j hj hji => hprev (j + 1) (Nat.succ_lt_succ hj) (Nat.succ_lt_succ hji))
        hfail
      simp [firstFailure, h0, hrec]

theorem firstFailure_eq_none (v : List Char) :
    ∀ rs : List ValidationRule,
      firstFailure rs v = none ↔
        ∀ r ∈ rs, (runValidationRule r v).isValid = true := by
  intro rs
  induction rs with
  | nil => simp [firstFailure]
  | cons r rs ih =>
    cases h : (runValidationRule r v).isValid with
    | true => simp [firstFailure, h, ih]
    | false => simp [firstFailure, h]

theorem validateField_fst_eq_isValid (f : FieldState) :
    (validateField f).1 = (validateField f).2.isValid := by
  simp only [validateField]
  cases h : firstFailure f.rules (trimChars f.value) <;>
    simp [setFieldError, setFieldSuccess]

theorem validateFields_snd (fs : List FieldState) :
    (validateFields fs).2 = fs.map (fun f => (validateField f).2) := by
  induction fs with
  | nil => rfl
  | cons f fs ih => simp [validateFields, ih]

theorem validateFields_fst (fs : List FieldState) :
    (validateFields fs).1 = fs.all (fun f => (validateField f).1) := by
  induction fs with
  | nil => rfl
  | cons f fs ih => simp [validateFields, ih, List.all_cons]

theorem validateFields_all_isValid (fs : List FieldState) :
    ((validateFields fs).2.all (fun f => f.isValid)) = (validateFields fs).1 := by
  rw [validateFields_snd, validateFields_fst]
  induction fs with
  | nil => rfl
  | cons f fs ih =>
    simp only [List.map_cons, List.all_cons, ih]
    rw [validateField_fst_eq_isValid]

theorem findFirstInvalid_isSome (fs : List FieldState)
    (h : fs.all (fun f => f.isValid) = false) :
    ∃ i, findFirstInvalid fs = some i := by
  induction fs with
  | nil => simp at h
  | cons f fs ih =>
    cases hf : f.isValid with
    | true =>
      rw [List.all_cons, hf, Bool.true_and] at h
      obtain ⟨i, hi⟩ := ih h
      exact ⟨i + 1, by simp [findFirstInvalid, hf, hi]⟩
    | false => exact ⟨0, by simp [findFirstInvalid, hf]⟩

theorem findFirstInvalid_eq_some_iff :
    ∀ (fs : List FieldState) (i : Nat),
      findFirstInvalid fs = some i ↔
        ∃ h : i < fs.length, (fs.get ⟨i, h⟩).isValid = false ∧
          ∀ j (hj : j < fs.length), j < i → (fs.get ⟨j, hj⟩).isValid = true := by
  intro fs
  induction fs with
  | nil => intro i; simp [findFirstInvalid]
  | cons f fs ih =>
    intro i
    cases hf : f.isValid with
    | false =>
      constructor
      · intro h
        simp [findFirstInvalid, hf] at h
        obtain rfl : i = 0 := by omega
        exact ⟨Nat.succ_pos _, hf, fun j hj hj0 => absurd hj0 (Nat.not_lt_zero j)⟩
      · rintro ⟨hlen, hinv, hprev⟩
        cases i with
        | zero => simp [findFirstInvalid, hf]
        | succ n =>
          have h0 : f.isValid = true := hprev 0 (Nat.succ_pos _) (Nat.succ_pos _)
          rw [hf] at h0
          exact absurd h0 (by decide)
    | true =>
      constructor
      · intro h
        simp only [findFirstInvalid] at h
        rw [hf] at h
        simp only [if_pos] at h
        rcases hmap : findFirstInvalid fs with _ | n
        · rw [hmap] at h; simp at h
        · rw [hmap] at h
          simp at h
          subst h
          obtain ⟨hlen, hinv, hprev⟩ := (ih n).mp hmap
          refine ⟨Nat.succ_lt_succ hlen, hinv, ?_⟩
          intro j hj hji
          cases j with
          | zero => exact hf
          | succ m =>
            exact hprev m (Nat.lt_of_succ_lt_succ hj) (Nat.lt_of_succ_lt_succ hji)
      · rintro ⟨hlen, hinv, hprev⟩
        cases i with
        | zero =>
          rw [show (((f :: fs).get ⟨0, hlen⟩).isValid) = f.isValid from rfl, hf] at hinv
          exact absurd hinv (by decide)
        | succ n =>
          have hrec : findFirstInvalid fs = some n :=
            (ih n).mpr ⟨Nat.lt_of_succ_lt_succ hlen, hinv,
              fun j hj hjn =>
                hprev (j + 1) (Nat.succ_lt_succ hj) (Nat.succ_lt_succ hjn)⟩
          simp [findFirstInvalid, hf, hrec]

theorem rules_canonical_order (input : InputElement) (rs : List ValidationRule)
    (h : getValidationRules input = Except.ok rs) :
    nondecreasing (rs.map ruleOrderIndex) = true := by
  cases hp : input.pattern with
  | none =>
    simp only [getValidationRules, hp, Except.ok.injEq] at h
    subst h
    cases hreq : input.required <;>
      by_cases hem : input.type = "email" <;>
      rcases hml : input.minlength with _ | n <;>
      by_cases hph : fieldIdentifier input = "phone" <;>
      simp +decide [hreq, hem, hml, hph, nondecreasing, ruleOrderIndex]
  | some pa =>
    cases pa with
    | valid p =>
      simp only [getValidationRules, hp, Except.ok.injEq] at h
      subst h
      cases hreq : input.required <;>
        by_cases hem : input.type = "email" <;>
        rcases hml : input.minlength with _ | n <;>
        by_cases hph : fieldIdentifier input = "phone" <;>
        simp +decide [hreq, hem, hml, hph, nondecreasing, ruleOrderIndex]
    | invalid =>
      simp only [getValidationRules, hp] at h
      exact Except.noConfusion h

theorem rules_head_required (input : InputElement) (rs : List ValidationRule)
    (h : getValidationRules input = Except.ok rs) (hreq : input.required = true) :
    ∃ rest, rs = ValidationRule.required (getRequiredMessage input) :: rest := by
  cases hp : input.pattern with
  | none =>
    simp only [getValidationRules, hp, hreq, if_true, List.cons_append,
      Except.ok.injEq] at h
    exact ⟨_, h.symm⟩
  | some pa =>
    cases pa with
    | valid p =>
      simp only [getValidationRules, hp, hreq, if_true, List.cons_append,
        Except.ok.injEq] at h
      exact ⟨_, h.symm⟩
    | invalid =>
      simp only [getValidationRules, hp] at h
      exact Except.noConfusion h

theorem phoneCore_iff (cs : List Char) :
    phoneCore cs = true ↔
      ∃ d ds, cs = d :: ds ∧ '1' ≤ d ∧ d ≤ '9' ∧
        (∀ c ∈ ds, c.isDigit = true) ∧ ds.length ≤ 15 := by
  cases cs with
  | nil => simp [phoneCore]
  | cons d ds =>
    constructor
    · intro h
      simp only [phoneCore, Bool.and_eq_true, decide_eq_true_eq,
        List.all_eq_true] at h
      exact ⟨d, ds, rfl, h.1.1.1, h.1.1.2, h.1.2, h.2⟩
    · rintro ⟨e, es, heq, h1, h2, h3, h4⟩
      injection heq with e1 e2
      subst e1; subst e2
      simp only [phoneCore, Bool.and_eq_true, decide_eq_true_eq,
        List.all_eq_true]
      exact ⟨⟨⟨h1, h2⟩, h3⟩, h4⟩

theorem phoneMatch_iff (cs : List Char) :
    phoneMatch cs = true ↔ phoneRegexSpec cs := by
  cases cs with
  | nil =>
    simp only [phoneMatch, phoneCore, phoneRegexSpec]
    constructor
    · intro h; exact absurd h (by decide)
    · rintro ⟨plus, d, ds, heq, -⟩
      cases plus <;> simp at heq
  | cons c rest =>
    by_cases hc : c = '+'
    · subst hc
      rw [show phoneMatch ('+' :: rest) = phoneCore rest from by simp [phoneMatch]]
      rw [phoneCore_iff]
      constructor
      · rintro ⟨d, ds, heq, h1, h2, h3, h4⟩
        exact ⟨true, d, ds, by simp [heq], h1, h2, h3, h4⟩
      · rintro ⟨plus, d, ds, heq, h1, h2, h3, h4⟩
        cases plus with
        | true =>
          simp at heq
          exact ⟨d, ds, heq, h1, h2, h3, h4⟩
        | false =>
          simp at heq
          rw [← heq.1] at h1
          exact absurd h1 (by decide)
    · rw [show phoneMatch (c :: rest) = phoneCore (c :: rest) from by
        simp [phoneMatch, hc]]
      rw [phoneCore_iff]
      constructor
      · rintro ⟨d, ds, heq, h1, h2, h3, h4⟩
        exact ⟨false, d, ds, by simp [heq], h1, h2, h3, h4⟩
      · rintro ⟨plus, d, ds, heq, h1, h2, h3, h4⟩
        cases plus with
        | true =>
          simp at heq
          exact absurd heq.1 hc
        | false =>
          simp only [Bool.false_eq_true, if_false, List.nil_append] at heq
          exact ⟨d, ds, heq, h1, h2, h3, h4⟩

/-! Claim theorems. -/

/-- Claim C1: for every field whose rules were derived by `getValidationRules`
and every value, the rule list is in the fixed canonical order Required,
Email, MinLength, Pattern, Phone, and `validateField` short-circuits at the
first failing rule: when every rule before position `i` passes on the trimmed
value and the rule at `i` fails, the field is reported invalid and the error
text displayed is exactly that rule's message, never an aggregate. -/
theorem validateField_rule_order_short_circuit
    (input : InputElement) (f : FieldState)
    (hr : getValidationRules input = Except.ok f.rules)
    (i : Fin f.rules.length)
    (hfail : (runValidationRule (f.rules.get i) (trimChars f.value)).isValid = false)
    (hprev : ∀ j : Fin f.rules.length, (j : Nat) < (i : Nat) →
      (runValidationRule (f.rules.get j) (trimChars f.value)).isValid = true) :
    nondecreasing (f.rules.map ruleOrderIndex) = true ∧
    validateField f = (false, setFieldError (clearFieldState f)
      (runValidationRule (f.rules.get i) (trimChars f.value)).message) ∧
    (validateField f).2.errorText =
      (runValidationRule (f.rules.get i) (trimChars f.value)).message ∧
    (validateField f).2.errorVisible = true ∧
    (validateField f).2.isValid = false := by
  have horder := rules_canonical_order input f.rules hr
  have hff : firstFailure f.rules (trimChars f.value) =
      some (runValidationRule (f.rules.get i) (trimChars f.value)).message := by
    refine firstFailure_eq_of_first_fail (trimChars f.value) f.rules i.1 i.2 ?_ hfail
    intro j hj hji
    exact hprev ⟨j, hj⟩ hji
  have hvf : validateField f = (false, setFieldError (clearFieldState f)
      (runValidationRule (f.rules.get i) (trimChars f.value)).message) := by
    simp [validateField, hff]
  exact ⟨horder, hvf, by rw [hvf]; try rfl, by rw [hvf]; try rfl, by rw [hvf]; try rfl⟩

/-- Witness for C1: the required email field `c1Field` with value `"bob"`:
Required passes (value nonempty), Email fails, and the Email message is the
one displayed. -/
theorem validateField_rule_order_short_circuit_witness :
    (validateField c1Field).1 = false ∧
    (validateField c1Field).2.errorText = "Please enter a valid email address" := by
  have h := validateField_rule_order_short_circuit c1Input c1Field rfl
    ⟨1, by decide⟩ (by decide) (by decide)
  exact ⟨by rw [h.2.1], h.2.2.1.trans (by rfl)⟩

/-- Claim C2: for every field whose derived rules contain the Required rule
(`required` attribute present), validating an empty or whitespace-only value
returns false, leaves `isValid` false, and displays the Required message,
whatever the other rules are. -/
theorem required_field_rejects_whitespace
    (input : InputElement) (f : FieldState)
    (hr : getValidationRules input = Except.ok f.rules)
    (hreq : input.required = true)
    (hws : f.value.all Char.isWhitespace = true) :
    (validateField f).1 = false ∧
    (validateField f).2.isValid = false ∧
    (validateField f).2.errorText = getRequiredMessage input ∧
    (validateField f).2.errorVisible = true := by
  obtain ⟨rest, hrules⟩ := rules_head_required input f.rules hr hreq
  have htrim : trimChars f.value = [] := trimChars_eq_nil f.value hws
  have hff : firstFailure f.rules (trimChars f.value) =
      some (getRequiredMessage input) := by
    rw [hrules, htrim]
    simp [firstFailure, runValidationRule]
  have hvf : validateField f =
      (false, setFieldError (clearFieldState f) (getRequiredMessage input)) := by
    simp [validateField, hff]
  exact ⟨by rw [hvf]; try rfl, by rw [hvf]; try rfl, by rw [hvf]; try rfl, by rw [hvf]; try rfl⟩

/-- Witness for C2: the required field `c2Field` whose value is two spaces is
rejected with its Required message. -/
theorem required_field_rejects_whitespace_witness :
    (validateField c2Field).1 = false ∧
    (validateField c2Field).2.errorText = getRequiredMessage c2Input := by
  have h := required_field_rejects_whitespace c2Input c2Field rfl rfl (by decide)
  exact ⟨h.1, h.2.2.1⟩

/-- Claim C3: the Phone rule passes exactly when the value handed to it is
empty or, after stripping whitespace, hyphens and parentheses, matches the
phone regex (optional plus, a digit `1`-`9`, then at most fifteen digits); in
particular the phone field `c3Field` with value `"(555) 123-4567"` validates
successfully. -/
theorem phone_rule_pass_condition (msg : String) (v : List Char) :
    ((runValidationRule (ValidationRule.phone msg) v).isValid = true ↔
      v = [] ∨ phoneRegexSpec (stripPhoneChars v)) ∧
    getValidationRules c3Input = Except.ok c3Field.rules ∧
    (validateField c3Field).1 = true ∧
    (validateField c3Field).2.isValid = true := by
  refine ⟨?_, rfl, by decide, by decide⟩
  simp only [runValidationRule, Bool.or_eq_true, List.isEmpty_iff, phoneMatch_iff]

/-- Claim C4: `clearFieldState`, from any prior state, yields exactly the
neutral state: `isValid` false, both indicator elements hidden, and neither
the error nor the success CSS class present. -/
theorem clearFieldState_yields_neutral (f : FieldState) :
    (clearFieldState f).isValid = false ∧
    (clearFieldState f).errorVisible = false ∧
    (clearFieldState f).successVisible = false ∧
    (clearFieldState f).hasErrorClass = false ∧
    (clearFieldState f).hasSuccessClass = false :=
  ⟨rfl, rfl, rfl, rfl, rfl⟩

/-- Claim C5: on submit the form is fully re-validated: every tracked field is
re-run through `validateField` in insertion order, the outcome being
independent of the cached `isValid` flag; the submission sequence starts
exactly when every field validated successfully; otherwise the submit control
and timer are untouched and focus moves to the first field in insertion order
whose `isValid` flag is false (`findFirstInvalid`, characterised in the last
conjunct as the least invalid index). -/
theorem handleSubmit_revalidates_and_gates (form : FormState) :
    ((handleSubmit form).2.fields = form.fields.map (fun f => (validateField f).2)) ∧
    (∀ (g : FieldState) (b : Bool),
      validateField { g with isValid := b } = validateField g) ∧
    ((handleSubmit form).1 = SubmitAction.beginSubmission ↔
      form.fields.all (fun f => (validateField f).1) = true) ∧
    ((handleSubmit form).1 = SubmitAction.beginSubmission →
      (handleSubmit form).2 = submitFormStart
        { form with fields := form.fields.map (fun f => (validateField f).2) }) ∧
    ((handleSubmit form).1 ≠ SubmitAction.beginSubmission ↔
      ∃ i, (handleSubmit form).1 = SubmitAction.focusField i) ∧
    (∀ i, (handleSubmit form).1 = SubmitAction.focusField i →
      findFirstInvalid ((handleSubmit form).2.fields) = some i ∧
      (handleSubmit form).2.submitBtn = form.submitBtn ∧
      (handleSubmit form).2.submitTimer = form.submitTimer) ∧
    (∀ (fs : List FieldState) (i : Nat),
      findFirstInvalid fs = some i ↔
        ∃ h : i < fs.length, (fs.get ⟨i, h⟩).isValid = false ∧
          ∀ j (hj : j < fs.length), j < i → (fs.get ⟨j, hj⟩).isValid = true) := by
  have hmap := validateFields_snd form.fields
  have hall := validateFields_fst form.fields
  have hcached : ∀ (g : FieldState) (b : Bool),
      validateField { g with isValid := b } = validateField g := fun g b => rfl
  cases hok : (validateFields form.fields).1 with
  | true =>
    have hhs : handleSubmit form = (SubmitAction.beginSubmission,
        submitFormStart { form with fields := (validateFields form.fields).2 }) := by
      simp [handleSubmit, validateForm, hok]
    refine ⟨?_, hcached, ?_, ?_, ?_, ?_, findFirstInvalid_eq_some_iff⟩
    · rw [hhs]
      show (validateFields form.fields).2 = _
      exact hmap
    · rw [hhs]
      constructor
      · intro _
        rw [← hall]
        exact hok
      · intro _
        rfl
    · intro _
      rw [hhs, hmap]
    · rw [hhs]
      constructor
      · intro hne
        exact absurd rfl hne
      · rintro ⟨i, hi⟩
        exact SubmitAction.noConfusion hi
    · intro i hi
      rw [hhs] at hi
      exact SubmitAction.noConfusion hi
  | false =>
    obtain ⟨k, hk⟩ := findFirstInvalid_isSome (validateFields form.fields).2
      (by rw [validateFields_all_isValid]; exact hok)
    have hhs : handleSubmit form = (SubmitAction.focusField k,
        { form with fields := (validateFields form.fields).2 }) := by
      simp [handleSubmit, validateForm, hok, hk]
    refine ⟨?_, hcached, ?_, ?_, ?_, ?_, findFirstInvalid_eq_some_iff⟩
    · rw [hhs]
      exact hmap
    · rw [hhs]
      constructor
      · intro h
        exact SubmitAction.noConfusion h
      · intro h
        exfalso
        rw [hall, h] at hok
        exact Bool.noConfusion hok
    · intro h
      rw [hhs] at h
      exact SubmitAction.noConfusion h
    · rw [hhs]
      constructor
      · intro _
        exact ⟨k, rfl⟩
      · rintro ⟨i, -⟩ hcontra
        exact SubmitAction.noConfusion hcontra
    · intro i hi
      rw [hhs] at hi
      have hik : SubmitAction.focusField k = SubmitAction.focusField i := hi
      injection hik with e
      subst e
      rw [hhs]
      exact ⟨hk, rfl, rfl⟩

/-- C6 evaluated at the failing input: a fully valid form whose submit control
is labelled `"Register Now"` and carries no `data-original-text` attribute.
The sequence disables and relabels the control and, on timer completion,
resets every field to empty and neutral and re-enables the control - but the
restored label is the fixed fallback `"Submit"`, not the label the control had
before submission began (the `originalText` local saved by the source is never
used). -/
theorem submitForm_label_not_restored :
    (submitFormStart c6Form).submitBtn =
      some { textContent := "Submitting...", disabled := true,
             dataOriginalText := none } ∧
    (submitFormStart c6Form).submitTimer = true ∧
    (submitFormComplete (submitFormStart c6Form)).submitBtn =
      some { textContent := "Submit", disabled := false,
             dataOriginalText := none } ∧
    (submitFormComplete (submitFormStart c6Form)).fields.all
      (fun g => g.value.isEmpty && !g.isValid && !g.errorVisible &&
        !g.successVisible && !g.hasErrorClass && !g.hasSuccessClass) = true ∧
    ¬ ((submitFormComplete (submitFormStart c6Form)).submitBtn.map
        (fun b => b.textContent) = some c6Btn.textContent) := by
  refine ⟨rfl, rfl, rfl, rfl, ?_⟩
  decide

/-- Counterexample to C7 as stated: a state reached right after a successful
submission attempt on an initialized form in which every tracked field's
`isValid` flag is true while the stored `isValid` member is still false - the
member is initialized to false and never written. -/
theorem form_isValid_member_not_derived :
    initForm [c7Input] none = Except.ok c7Form ∧
    (handleSubmit c7Form).2.fields.all (fun f => f.isValid) = true ∧
    (handleSubmit c7Form).2.isValid = false :=
  ⟨rfl, rfl, rfl⟩

/-- Claim C7 amended: the stored `isValid` member is initialized to false and
never updated by validation or submission; overall validity is instead
recomputed on each submission attempt as the conjunction of the fresh
per-field results (equivalently, of the fields' `isValid` flags after
re-validation), and submission is gated on that recomputed value. -/
theorem form_validity_recomputed_each_submit (form : FormState) :
    ((validateForm form).2.isValid = form.isValid) ∧
    ((handleSubmit form).2.isValid = form.isValid) ∧
    ((validateForm form).1 = (validateForm form).2.fields.all (fun f => f.isValid)) ∧
    ((handleSubmit form).1 = SubmitAction.beginSubmission ↔
      (validateForm form).1 = true) ∧
    (∀ (inputs : List InputElement) (btn : Option SubmitButton) (st : FormState),
      initForm inputs btn = Except.ok st → st.isValid = false) := by
  refine ⟨rfl, ?_, ?_, ?_, ?_⟩
  · simp only [handleSubmit, validateForm]
    cases hok : (validateFields form.fields).1 with
    | true => simp [submitFormStart]
    | false =>
      cases hfi : findFirstInvalid (validateFields form.fields).2 <;> simp [hfi]
  · show (validateFields form.fields).1 =
      (validateFields form.fields).2.all (fun f => f.isValid)
    exact (validateFields_all_isValid form.fields).symm
  · simp only [handleSubmit, validateForm]
    cases hok : (validateFields form.fields).1 with
    | true => simp
    | false =>
      cases hfi : findFirstInvalid (validateFields form.fields).2 <;> simp [hfi]
  · intro inputs btn st h
    cases hinit : initFields inputs with
    | error e =>
      simp only [initForm, hinit] at h
      exact Except.noConfusion h
    | ok fs =>
      simp only [initForm, hinit, Except.ok.injEq] at h
      rw [← h]

/-- Counterexample to C8 as stated: a malformed pattern on the first field of
the first form leaves no form registered at all - neither the well-formed
second field of the same form nor the entire second form is initialized, even
though the second form initializes fine on its own. -/
theorem pattern_error_aborts_other_forms :
    setupFormValidation [[c8BadInput, c8GoodInput], [c8GoodInput2]] = ([], true) ∧
    initForm [c8GoodInput2] none = Except.ok c8Form2 :=
  ⟨rfl, rfl⟩

/-- Claim C8 amended: compiling a malformed pattern attribute throws at
initialization time, and the exception aborts the initialization of the rest
of that form (which is never registered) and of every subsequent form; exactly
the forms initialized before the throwing one remain registered. -/
theorem pattern_error_abort_propagation
    (pre post : List (List InputElement)) (bad : List InputElement)
    (hbad : initForm bad none = Except.error ()) :
    setupFormValidation (pre ++ bad :: post) =
      ((setupFormValidation pre).1, true) := by
  induction pre with
  | nil => simp [setupFormValidation, hbad]
  | cons p pre ih =>
    cases hp : initForm p none with
    | error e =>
      cases e
      simp [setupFormValidation, hp]
    | ok st => simp [setupFormValidation, hp, ih]

/-- Witness for the amended C8: the concrete single-field forms, with the
malformed one in the middle. -/
theorem pattern_error_abort_propagation_witness :
    initForm [c8BadInput] none = Except.error () ∧
    setupFormValidation ([[c8GoodInput]] ++ [c8BadInput] :: [[c8GoodInput2]]) =
      ((setupFormValidation [[c8GoodInput]]).1, true) :=
  ⟨rfl, pattern_error_abort_propagation [[c8GoodInput]] [[c8GoodInput2]]
    [c8BadInput] rfl⟩

/-- Counterexample to C9 as stated: applying `setFieldError` to a field whose
success indicator is currently shown (the state a successful `validateField`
leaves behind) makes both indicators visible at once, because `setFieldError`
does not hide the success element. -/
theorem setFieldError_shows_both_indicators :
    (setFieldError c9Field "Oops").errorVisible = true ∧
    (setFieldError c9Field "Oops").successVisible = true :=
  ⟨rfl, rfl⟩

/-- Claim C9 amended: after `validateField` or `clearFieldState`, from any
prior state, the two indicators are never both visible and the two CSS classes
are never both present; `setFieldError` and `setFieldSuccess` never leave both
CSS classes present, and leave at most one indicator visible provided the
opposite indicator was hidden beforehand (as at their only call sites, which
run directly after `clearFieldState`); and `validateField`'s return value
equals the field's `isValid` flag afterwards. -/
theorem field_ops_indicator_exclusion (f : FieldState) (msg : String) :
    (((validateField f).2.errorVisible && (validateField f).2.successVisible) = false) ∧
    (((validateField f).2.hasErrorClass && (validateField f).2.hasSuccessClass) = false) ∧
    ((validateField f).1 = (validateField f).2.isValid) ∧
    (((clearFieldState f).errorVisible && (clearFieldState f).successVisible) = false) ∧
    (((clearFieldState f).hasErrorClass && (clearFieldState f).hasSuccessClass) = false) ∧
    (((setFieldError f msg).hasErrorClass && (setFieldError f msg).hasSuccessClass) = false) ∧
    (((setFieldSuccess f).hasErrorClass && (setFieldSuccess f).hasSuccessClass) = false) ∧
    (f.successVisible = false →
      ((setFieldError f msg).errorVisible && (setFieldError f msg).successVisible) = false) ∧
    (f.errorVisible = false →
      ((setFieldSuccess f).errorVisible && (setFieldSuccess f).successVisible) = false) := by
  have hvfa : ((validateField f).2.errorVisible &&
      (validateField f).2.successVisible) = false := by
    simp only [validateField]
    cases h : firstFailure f.rules (trimChars f.value) <;>
      simp [setFieldError, setFieldSuccess, clearFieldState]
  have hvfb : ((validateField f).2.hasErrorClass &&
      (validateField f).2.hasSuccessClass) = false := by
    simp only [validateField]
    cases h : firstFailure f.rules (trimChars f.value) <;>
      simp [setFieldError, setFieldSuccess, clearFieldState]
  refine ⟨hvfa, hvfb, validateField_fst_eq_isValid f, rfl, rfl, ?_, ?_, ?_, ?_⟩
  · simp [setFieldError]
  · simp [setFieldSuccess]
  · intro h
    simp [setFieldError, h]
  · intro h
    simp [setFieldSuccess, h]

/-- Claim C10: a field with no activating attributes (not required, type not
`"email"`, no `minlength`, no `pattern`, identifier not `"phone"`) derives the
empty rule list, and a field whose rule list is empty validates successfully
on every value, the empty string included: `validateField` returns true, sets
`isValid` true and shows the success indicator. -/
theorem no_rules_always_valid (input : InputElement)
    (h1 : input.required = false) (h2 : ¬ input.type = "email")
    (h3 : input.minlength = none) (h4 : input.pattern = none)
    (h5 : ¬ fieldIdentifier input = "phone") :
    getValidationRules input = Except.ok [] ∧
    ∀ f : FieldState, f.rules = [] →
      (validateField f).1 = true ∧
      (validateField f).2.isValid = true ∧
      (validateField f).2.successVisible = true ∧
      (validateField f).2.hasSuccessClass = true := by
  constructor
  · simp [getValidationRules, h1, h2, h3, h4, h5]
  · intro f hf
    have hvf : validateField f = (true, setFieldSuccess (clearFieldState f)) := by
      simp [validateField, hf, firstFailure]
    exact ⟨by rw [hvf], by rw [hvf]; try rfl, by rw [hvf]; try rfl,
      by rw [hvf]; try rfl⟩

/-- Witness for C10: the attribute-free text field `c10Input` derives no
rules, and the rule-free field `c10Field` with the empty value validates
successfully. -/
theorem no_rules_always_valid_witness :
    getValidationRules c10Input = Except.ok [] ∧
    (validateField c10Field).1 = true ∧
    (validateField c10Field).2.successVisible = true := by
  have h := no_rules_always_valid c10Input rfl (by decide) rfl rfl (by decide)
  exact ⟨h.1, (h.2 c10Field rfl).1, (h.2 c10Field rfl).2.2.1⟩

end FormValidation
